import Mathlib

/-!
Verification of the SPI SD/MMC card emulation (package `sd`, file `sd.go`).

The Go code is shallowly embedded: bytes (`byte`/`uint8`) become `Nat` with
explicit `% 256` wherever Go's fixed-width arithmetic truncates, the mutable
`SdCard` struct becomes an immutable `SdCard` structure threaded through
functions, and the `fmt.Printf` exchange trace in `logExchange` becomes a
`log` field recording the (mosi, miso) byte pairs in emission order.
-/

namespace SdSpec

/-- `PinMap` associates SD card lines with parallel port pin numbers (0..7).
Field `Sclk`/`Mosi`/`Miso`/`Ss` of the Go struct. -/
structure PinMap where
  sclk : Nat
  mosi : Nat
  miso : Nat
  ss : Nat
deriving Repr, DecidableEq

/-- The `SdCard` struct together with its embedded `spiState`.  The Go fields
`clock`, `index`, `misoBuffer`, `misoQueue`, `readByte`, `mosiBuffer` are kept
under their source names; the four derived single-bit masks are the `maskSclk`,
`maskMosi`, `maskMiso`, `maskSs` fields.  `log` records the `logExchange`
output (a pure model of the `fmt.Printf` trace).  The card image (`data`,
`size`) is never read by the protocol core and is omitted. -/
structure SdCard where
  clock : Bool
  index : Nat
  misoBuffer : Nat
  misoQueue : List Nat
  readByte : Nat
  mosiBuffer : Nat
  maskSclk : Nat
  maskMosi : Nat
  maskMiso : Nat
  maskSs : Nat
  log : List (Nat × Nat)
deriving Repr, DecidableEq

/-- `queueMiso` appends bytes at the tail of the miso queue
(Go: `sd.misoQueue = append(sd.misoQueue, bytes...)`). -/
def queueMiso (s : SdCard) (bytes : List Nat) : SdCard :=
  { s with misoQueue := s.misoQueue ++ bytes }

/-- `handleMisoByte`: dequeue the head of `misoQueue` into `misoBuffer`, or
default `misoBuffer` to `0x00` when the queue is empty; returns the new
`misoBuffer` together with the updated card. -/
def handleMisoByte (s : SdCard) : Nat × SdCard :=
  match s.misoQueue with
  | b :: rest => (b, { s with misoBuffer := b, misoQueue := rest })
  | [] => (0x00, { s with misoBuffer := 0x00 })

/-- `handleMosiByte`: take the assembled input byte out of `mosiBuffer`
(resetting the buffer to 0), and when it equals `0x40` enqueue the fixed
response bytes `0xAA 0xAB 0xAC 0xAD`; returns the taken byte with the
updated card (Go `switch` with the single case `0x40`). -/
def handleMosiByte (s : SdCard) : Nat × SdCard :=
  let data := s.mosiBuffer
  let s1 : SdCard := { s with mosiBuffer := 0x00 }
  if data = 0x40 then (data, queueMiso s1 [0xAA, 0xAB, 0xAC, 0xAD])
  else (data, s1)

/-- `logExchange` models the `fmt.Printf` trace as an append to the `log`
field: one `(mosi, miso)` pair per completed byte exchange. -/
def logExchange (s : SdCard) (mosi miso : Nat) : SdCard :=
  { s with log := s.log ++ [(mosi, miso)] }

/-- The rising-edge body of `Write`: latch the level of bit `index` of
`misoBuffer` onto `readByte` (`0x00 | maskMiso` when set, `0x00` when clear).
Go shifts the untyped literal 1 inside the `byte`-typed expression, hence the
`% 256`. -/
def risingUpd (s : SdCard) : SdCard :=
  { s with readByte := if 0 < s.misoBuffer &&& (1 <<< s.index) % 256
                       then 0x00 ||| s.maskMiso else 0x00 }

/-- The falling-edge body of `Write`: capture the mosi level into bit `index`
of `mosiBuffer`; at `index = 0` run the byte-boundary sequence
(`handleMosiByte`, `handleMisoByte`, `logExchange`, reset `index` to 7),
otherwise decrement `index`. -/
def fallingUpd (s : SdCard) (mosi : Bool) : SdCard :=
  let s1 := if mosi then { s with mosiBuffer := s.mosiBuffer ||| (1 <<< s.index) % 256 }
            else s
  if s1.index = 0 then
    let p1 := handleMosiByte s1
    let p2 := handleMisoByte p1.2
    let s4 := logExchange p2.2 p1.1 p2.1
    { s4 with index := 7 }
  else
    { s1 with index := s1.index - 1 }

/-- The body of `Write` after the chip-select guard, acting on the extracted
mosi and clock levels: detect rising and falling edges against the remembered
`clock`, store the new clock level, then apply the edge bodies. -/
def writeLevels (s : SdCard) (mosi clock : Bool) : SdCard :=
  let rising := !s.clock && clock
  let falling := s.clock && !clock
  let s1 : SdCard := { s with clock := clock }
  let s2 := if rising then risingUpd s1 else s1
  if falling then fallingUpd s2 mosi else s2

/-- `Write` takes an updated parallel port state.  A set chip-select bit
(high = inactive) returns immediately with no state change; otherwise the
mosi and clock levels are extracted through the masks and processed. -/
def Write (s : SdCard) (data : Nat) : SdCard :=
  if 0 < data &&& s.maskSs then s
  else writeLevels s (0 < data &&& s.maskMosi) (0 < data &&& s.maskSclk)

/-- `Read` returns the remembered pin state `readByte`; it performs no
mutation (it is a pure projection of the card state). -/
def Read (s : SdCard) : Nat :=
  s.readByte

/-- `NewSdCard`: derive the four single-bit masks from the pin map (Go
truncates `1 << pin` to `uint8`, hence `% 256`), set `index = 7`, pre-load
the miso queue with `0x00 0x00 0x00 0xFF`, and dequeue once to fill the
miso buffer.  Remaining fields start at Go's zero values. -/
def NewSdCard (pm : PinMap) : SdCard :=
  let s : SdCard :=
    { clock := false
      index := 7
      misoBuffer := 0
      misoQueue := []
      readByte := 0
      mosiBuffer := 0
      maskSclk := (1 <<< pm.sclk) % 256
      maskMosi := (1 <<< pm.mosi) % 256
      maskMiso := (1 <<< pm.miso) % 256
      maskSs := (1 <<< pm.ss) % 256
      log := [] }
  let s1 := queueMiso s [0x00, 0x00, 0x00, 0xFF]
  (handleMisoByte s1).2

/-- A sequence of `Write` calls, first element written first. -/
def writeSeq (s : SdCard) (ds : List Nat) : SdCard :=
  ds.foldl Write s

end SdSpec

namespace SdSpec

/-- The four masks of a card derived, as in `NewSdCard`, from a pin map. -/
def goodMasks (pm : PinMap) (s : SdCard) : Prop :=
  s.maskSclk = (1 <<< pm.sclk) % 256 ∧ s.maskMosi = (1 <<< pm.mosi) % 256 ∧
    s.maskMiso = (1 <<< pm.miso) % 256 ∧ s.maskSs = (1 <<< pm.ss) % 256

/-- The pin-map contract: four pin numbers in 0..7, pairwise distinct. -/
def goodPins (pm : PinMap) : Prop :=
  pm.sclk < 8 ∧ pm.mosi < 8 ∧ pm.miso < 8 ∧ pm.ss < 8 ∧
    pm.sclk ≠ pm.mosi ∧ pm.sclk ≠ pm.miso ∧ pm.sclk ≠ pm.ss ∧
    pm.mosi ≠ pm.miso ∧ pm.mosi ≠ pm.ss ∧ pm.miso ≠ pm.ss

instance (pm : PinMap) (s : SdCard) : Decidable (goodMasks pm s) := by
  unfold goodMasks; infer_instance

instance (pm : PinMap) : Decidable (goodPins pm) := by
  unfold goodPins; infer_instance

/-- A parallel-port byte presenting the given clock and host-data-out levels,
with chip select driven low (active) and everything else low. -/
def mkPort (pm : PinMap) (clock mosi : Bool) : Nat :=
  (if clock then (1 <<< pm.sclk) % 256 else 0) |||
    (if mosi then (1 <<< pm.mosi) % 256 else 0)

theorem shift_mask_eq (p : Nat) (hp : p < 8) : (1 <<< p) % 256 = 2 ^ p := by
  rw [Nat.one_shiftLeft]
  exact Nat.mod_eq_of_lt (lt_of_lt_of_le (Nat.pow_lt_pow_right (by norm_num) hp) (by norm_num))

theorem land_two_pow_pos (x p : Nat) : 0 < x &&& 2 ^ p ↔ x.testBit p := by
  rw [Nat.and_two_pow]
  cases h : x.testBit p <;> simp [h, Nat.pos_pow_of_pos]

theorem mkPort_ss_decide (pm : PinMap) (hp : goodPins pm) (c m : Bool) :
    ¬ 0 < mkPort pm c m &&& (1 <<< pm.ss) % 256 := by
  obtain ⟨h1, h2, h3, h4, h5, h6, h7, h8, h9, h10⟩ := hp
  cases c <;> cases m <;>
    simp [mkPort, shift_mask_eq _ h1, shift_mask_eq _ h2, shift_mask_eq _ h4,
      land_two_pow_pos, Nat.testBit_or, Nat.testBit_two_pow, h7, h9,
      (Ne.symm h7), (Ne.symm h9)]

theorem mkPort_sclk_decide (pm : PinMap) (hp : goodPins pm) (c m : Bool) :
    decide (0 < mkPort pm c m &&& (1 <<< pm.sclk) % 256) = c := by
  obtain ⟨h1, h2, h3, h4, h5, h6, h7, h8, h9, h10⟩ := hp
  cases c <;> cases m <;>
    simp [mkPort, shift_mask_eq _ h1, shift_mask_eq _ h2,
      land_two_pow_pos, Nat.testBit_or, Nat.testBit_two_pow, h5, (Ne.symm h5)]

theorem mkPort_mosi_decide (pm : PinMap) (hp : goodPins pm) (c m : Bool) :
    decide (0 < mkPort pm c m &&& (1 <<< pm.mosi) % 256) = m := by
  obtain ⟨h1, h2, h3, h4, h5, h6, h7, h8, h9, h10⟩ := hp
  cases c <;> cases m <;>
    simp [mkPort, shift_mask_eq _ h1, shift_mask_eq _ h2,
      land_two_pow_pos, Nat.testBit_or, Nat.testBit_two_pow, h5, (Ne.symm h5)]

/-- `Write` on a constructed port byte acts as the level-based step. -/
theorem Write_mkPort (pm : PinMap) (s : SdCard) (hm : goodMasks pm s)
    (hp : goodPins pm) (c m : Bool) :
    Write s (mkPort pm c m) = writeLevels s m c := by
  obtain ⟨m1, m2, m3, m4⟩ := hm
  unfold Write
  rw [m4, if_neg (mkPort_ss_decide pm hp c m), m1, m2]
  simp only [mkPort_sclk_decide pm hp c m, mkPort_mosi_decide pm hp c m]

end SdSpec

namespace SdSpec

/-- Dequeue-or-default, written with `headD`/`tail` so that it applies to a
symbolic queue. -/
theorem handleMisoByte_eq (s : SdCard) :
    handleMisoByte s = (s.misoQueue.headD 0x00,
      { s with misoBuffer := s.misoQueue.headD 0x00, misoQueue := s.misoQueue.tail }) := by
  unfold handleMisoByte
  cases h : s.misoQueue <;> simp [h]

/-- Command dispatch, with the enqueue folded into the queue field. -/
theorem handleMosiByte_eq (s : SdCard) :
    handleMosiByte s = (s.mosiBuffer,
      { s with mosiBuffer := 0x00,
               misoQueue := if s.mosiBuffer = 0x40
                            then s.misoQueue ++ [0xAA, 0xAB, 0xAC, 0xAD]
                            else s.misoQueue }) := by
  by_cases h : s.mosiBuffer = 0x40 <;> simp [handleMosiByte, queueMiso, h]

/-- Conditionally set bit `i` of byte `x` (the falling-edge mosi capture). -/
def setBitCond (b : Bool) (x i : Nat) : Nat :=
  if b then x ||| (1 <<< i) % 256 else x

/-- One full clock pulse (rising then falling `Write`) away from a byte
boundary: the output line latches bit `index` of `misoBuffer` (when the
clock was low; a high remembered clock swallows the rising edge), the mosi
level lands in bit `index` of `mosiBuffer`, and `index` decrements. -/
theorem Write_pair (pm : PinMap) (s : SdCard) (hm : goodMasks pm s)
    (hp : goodPins pm) (r m : Bool) (hi : s.index ≠ 0) :
    Write (Write s (mkPort pm true r)) (mkPort pm false m) =
    { s with clock := false,
             readByte := if s.clock then s.readByte
                         else if 0 < s.misoBuffer &&& (1 <<< s.index) % 256
                              then 0x00 ||| s.maskMiso else 0x00,
             mosiBuffer := setBitCond m s.mosiBuffer s.index,
             index := s.index - 1 } := by
  rw [Write_mkPort pm s hm hp true r]
  have hm2 : goodMasks pm (writeLevels s r true) := by
    obtain ⟨m1, m2, m3, m4⟩ := hm
    cases hc : s.clock <;>
      simp [writeLevels, risingUpd, goodMasks, hc, m1, m2, m3, m4]
  rw [Write_mkPort pm _ hm2 hp false m]
  cases hc : s.clock <;> cases m <;>
    simp [writeLevels, risingUpd, fallingUpd, setBitCond, hc, hi]

/-- One full clock pulse at the byte boundary (`index = 0`): the mosi level
completes the input byte, the command dispatch and the refill of the output
buffer run, the exchange is logged, and `index` resets to 7. -/
theorem Write_pair_boundary (pm : PinMap) (s : SdCard) (hm : goodMasks pm s)
    (hp : goodPins pm) (r m : Bool) (hi : s.index = 0) :
    Write (Write s (mkPort pm true r)) (mkPort pm false m) =
    (let data := setBitCond m s.mosiBuffer 0
     let q := if data = 0x40 then s.misoQueue ++ [0xAA, 0xAB, 0xAC, 0xAD]
              else s.misoQueue
     { s with clock := false,
              readByte := if s.clock then s.readByte
                          else if 0 < s.misoBuffer &&& (1 <<< s.index) % 256
                               then 0x00 ||| s.maskMiso else 0x00,
              mosiBuffer := 0x00,
              misoBuffer := q.headD 0x00,
              misoQueue := q.tail,
              log := s.log ++ [(data, q.headD 0x00)],
              index := 7 }) := by
  rw [Write_mkPort pm s hm hp true r]
  have hm2 : goodMasks pm (writeLevels s r true) := by
    obtain ⟨m1, m2, m3, m4⟩ := hm
    cases hc : s.clock <;>
      simp [writeLevels, risingUpd, goodMasks, hc, m1, m2, m3, m4]
  rw [Write_mkPort pm _ hm2 hp false m]
  cases hc : s.clock <;> cases m <;>
    simp [writeLevels, risingUpd, fallingUpd, setBitCond,
      handleMosiByte_eq, handleMisoByte_eq, logExchange, hc, hi]

/-- A single rising-edge `Write` from a low remembered clock: only `clock`
and the latched `readByte` change. -/
theorem Write_rise (pm : PinMap) (s : SdCard) (hm : goodMasks pm s)
    (hp : goodPins pm) (r : Bool) (hc : s.clock = false) :
    Write s (mkPort pm true r) =
    { s with clock := true,
             readByte := if 0 < s.misoBuffer &&& (1 <<< s.index) % 256
                         then 0x00 ||| s.maskMiso else 0x00 } := by
  rw [Write_mkPort pm s hm hp true r]
  simp [writeLevels, risingUpd, hc]

end SdSpec

namespace SdSpec

/-- The 16 `Write` calls of one full 8-bit exchange: 8 rising/falling pairs
with select active, mosi level `r k` on the `k`-th rising call and `f k` on
the `k`-th falling call. -/
def exchangeWrites (pm : PinMap) (r f : Fin 8 → Bool) : List Nat :=
  [mkPort pm true (r 0), mkPort pm false (f 0),
   mkPort pm true (r 1), mkPort pm false (f 1),
   mkPort pm true (r 2), mkPort pm false (f 2),
   mkPort pm true (r 3), mkPort pm false (f 3),
   mkPort pm true (r 4), mkPort pm false (f 4),
   mkPort pm true (r 5), mkPort pm false (f 5),
   mkPort pm true (r 6), mkPort pm false (f 6),
   mkPort pm true (r 7), mkPort pm false (f 7)]

/-- The byte assembled MSB-first from the falling-edge levels `f 0 .. f 7`,
in the exact shape the capture loop produces. -/
def byteOfBits (f : Fin 8 → Bool) : Nat :=
  setBitCond (f 7) (setBitCond (f 6) (setBitCond (f 5) (setBitCond (f 4)
    (setBitCond (f 3) (setBitCond (f 2) (setBitCond (f 1)
      (setBitCond (f 0) 0 7) 6) 5) 4) 3) 2) 1) 0

/-- The miso queue after the byte-boundary handler has seen input `byteOfBits f`. -/
def respQueue (f : Fin 8 → Bool) (q : List Nat) : List Nat :=
  if byteOfBits f = 0x40 then q ++ [0xAA, 0xAB, 0xAC, 0xAD] else q

theorem writeSeq_nil (s : SdCard) : writeSeq s [] = s := rfl

theorem writeSeq_append (s : SdCard) (l l' : List Nat) :
    writeSeq s (l ++ l') = writeSeq (writeSeq s l) l' :=
  List.foldl_append ..

theorem writeSeq_pair_cons (pm : PinMap) (s : SdCard) (hm : goodMasks pm s)
    (hp : goodPins pm) (r m : Bool) (hi : s.index ≠ 0) (rest : List Nat) :
    writeSeq s (mkPort pm true r :: mkPort pm false m :: rest) =
    writeSeq
      { s with clock := false,
               readByte := if s.clock then s.readByte
                           else if 0 < s.misoBuffer &&& (1 <<< s.index) % 256
                                then 0x00 ||| s.maskMiso else 0x00,
               mosiBuffer := setBitCond m s.mosiBuffer s.index,
               index := s.index - 1 } rest := by
  show writeSeq (Write (Write s (mkPort pm true r)) (mkPort pm false m)) rest = _
  rw [Write_pair pm s hm hp r m hi]

theorem writeSeq_boundary_cons (pm : PinMap) (s : SdCard) (hm : goodMasks pm s)
    (hp : goodPins pm) (r m : Bool) (hi : s.index = 0) (rest : List Nat) :
    writeSeq s (mkPort pm true r :: mkPort pm false m :: rest) =
    writeSeq
      (let data := setBitCond m s.mosiBuffer 0
       let q := if data = 0x40 then s.misoQueue ++ [0xAA, 0xAB, 0xAC, 0xAD]
                else s.misoQueue
       { s with clock := false,
                readByte := if s.clock then s.readByte
                            else if 0 < s.misoBuffer &&& (1 <<< s.index) % 256
                                 then 0x00 ||| s.maskMiso else 0x00,
                mosiBuffer := 0x00,
                misoBuffer := q.headD 0x00,
                misoQueue := q.tail,
                log := s.log ++ [(data, q.headD 0x00)],
                index := 7 }) rest := by
  show writeSeq (Write (Write s (mkPort pm true r)) (mkPort pm false m)) rest = _
  rw [Write_pair_boundary pm s hm hp r m hi]

end SdSpec

namespace SdSpec

/-- One full 8-bit exchange from a byte-boundary state: the falling-edge
levels are assembled into the input byte, the command dispatch and output
refill run once, and the exchange is logged. -/
theorem Write_exchange (pm : PinMap) (s : SdCard) (hm : goodMasks pm s)
    (hp : goodPins pm) (hi : s.index = 7)
    (hb : s.mosiBuffer = 0) (r f : Fin 8 → Bool) :
    writeSeq s (exchangeWrites pm r f) =
    { s with clock := false,
             readByte := if 0 < s.misoBuffer &&& 1 then 0x00 ||| s.maskMiso else 0x00,
             mosiBuffer := 0x00,
             misoBuffer := (respQueue f s.misoQueue).headD 0x00,
             misoQueue := (respQueue f s.misoQueue).tail,
             log := s.log ++ [(byteOfBits f, (respQueue f s.misoQueue).headD 0x00)],
             index := 7 } := by
  simp only [exchangeWrites]
  rw [writeSeq_pair_cons pm s hm hp (r 0) (f 0) (by simp [hi])]
  simp only [hi, hb]
  norm_num
  rw [writeSeq_pair_cons pm _ (by exact hm) hp (r 1) (f 1) (by norm_num)]
  norm_num
  rw [writeSeq_pair_cons pm _ (by exact hm) hp (r 2) (f 2) (by norm_num)]
  norm_num
  rw [writeSeq_pair_cons pm _ (by exact hm) hp (r 3) (f 3) (by norm_num)]
  norm_num
  rw [writeSeq_pair_cons pm _ (by exact hm) hp (r 4) (f 4) (by norm_num)]
  norm_num
  rw [writeSeq_pair_cons pm _ (by exact hm) hp (r 5) (f 5) (by norm_num)]
  norm_num
  rw [writeSeq_pair_cons pm _ (by exact hm) hp (r 6) (f 6) (by norm_num)]
  norm_num
  rw [writeSeq_boundary_cons pm _ (by exact hm) hp (r 7) (f 7) (by norm_num)]
  simp [byteOfBits, respQueue, writeSeq, setBitCond]


end SdSpec

namespace SdSpec

set_option maxRecDepth 4000 in
theorem byteOfBits_testBit : ∀ V, V < 256 →
    byteOfBits (fun k => V.testBit (7 - k.val)) = V := by decide

theorem fallingUpd_preserves (s : SdCard) (m : Bool) :
    (fallingUpd s m).readByte = s.readByte ∧ (fallingUpd s m).clock = s.clock ∧
      (fallingUpd s m).maskSclk = s.maskSclk ∧ (fallingUpd s m).maskMosi = s.maskMosi ∧
      (fallingUpd s m).maskMiso = s.maskMiso ∧ (fallingUpd s m).maskSs = s.maskSs := by
  cases m <;> simp [fallingUpd, handleMosiByte_eq, handleMisoByte_eq, logExchange] <;>
    split <;> simp

theorem fallingUpd_index (s : SdCard) (m : Bool) :
    (fallingUpd s m).index = 7 ∨ (fallingUpd s m).index = s.index - 1 := by
  cases m <;> simp [fallingUpd, handleMosiByte_eq, handleMisoByte_eq, logExchange] <;>
    split <;> simp

end SdSpec

namespace SdSpec

theorem writeLevels_readByte (s : SdCard) (m c : Bool) :
    (writeLevels s m c).readByte = s.readByte ∨
      (writeLevels s m c).readByte =
        (if 0 < s.misoBuffer &&& (1 <<< s.index) % 256
         then 0x00 ||| s.maskMiso else 0x00) := by
  unfold writeLevels
  cases hc : s.clock <;> cases c <;>
    simp [risingUpd, (fallingUpd_preserves _ m).1]

theorem writeLevels_masks (s : SdCard) (m c : Bool) :
    (writeLevels s m c).maskSclk = s.maskSclk ∧ (writeLevels s m c).maskMosi = s.maskMosi ∧
      (writeLevels s m c).maskMiso = s.maskMiso ∧ (writeLevels s m c).maskSs = s.maskSs := by
  unfold writeLevels
  cases hc : s.clock <;> cases c <;>
    simp [risingUpd, fallingUpd_preserves]

theorem writeLevels_index (s : SdCard) (m c : Bool) :
    (writeLevels s m c).index = s.index ∨ (writeLevels s m c).index = 7 ∨
      (writeLevels s m c).index = s.index - 1 := by
  unfold writeLevels
  cases hc : s.clock <;> cases c <;> simp [risingUpd]
  rcases fallingUpd_index { s with clock := false } m with h | h <;> simp [h]

theorem Write_masks (s : SdCard) (d : Nat) :
    (Write s d).maskSclk = s.maskSclk ∧ (Write s d).maskMosi = s.maskMosi ∧
      (Write s d).maskMiso = s.maskMiso ∧ (Write s d).maskSs = s.maskSs := by
  unfold Write
  split
  · exact ⟨rfl, rfl, rfl, rfl⟩
  · exact writeLevels_masks ..

theorem Write_index_cases (s : SdCard) (d : Nat) :
    (Write s d).index = s.index ∨ (Write s d).index = 7 ∨
      (Write s d).index = s.index - 1 := by
  unfold Write
  split
  · exact Or.inl rfl
  · exact writeLevels_index ..

theorem Write_readByte_cases (s : SdCard) (d : Nat) :
    (Write s d).readByte = s.readByte ∨
      (Write s d).readByte =
        (if 0 < s.misoBuffer &&& (1 <<< s.index) % 256
         then 0x00 ||| s.maskMiso else 0x00) := by
  unfold Write
  split
  · exact Or.inl rfl
  · exact writeLevels_readByte ..

end SdSpec

namespace SdSpec

/-- The card state produced by `NewSdCard`, written out: four bytes are
queued and the first is immediately dequeued into the miso buffer. -/
theorem NewSdCard_eq (pm : PinMap) :
    NewSdCard pm =
    { clock := false, index := 7, misoBuffer := 0x00,
      misoQueue := [0x00, 0x00, 0xFF], readByte := 0, mosiBuffer := 0,
      maskSclk := (1 <<< pm.sclk) % 256, maskMosi := (1 <<< pm.mosi) % 256,
      maskMiso := (1 <<< pm.miso) % 256, maskSs := (1 <<< pm.ss) % 256,
      log := [] } := rfl

theorem writeSeq_cons (s : SdCard) (d : Nat) (ds : List Nat) :
    writeSeq s (d :: ds) = writeSeq (Write s d) ds := rfl

theorem writeSeq_masks (s : SdCard) (ds : List Nat) :
    (writeSeq s ds).maskSclk = s.maskSclk ∧ (writeSeq s ds).maskMosi = s.maskMosi ∧
      (writeSeq s ds).maskMiso = s.maskMiso ∧ (writeSeq s ds).maskSs = s.maskSs := by
  induction ds generalizing s with
  | nil => exact ⟨rfl, rfl, rfl, rfl⟩
  | cons d ds ih =>
    rw [writeSeq_cons]
    obtain ⟨a1, a2, a3, a4⟩ := Write_masks s d
    obtain ⟨b1, b2, b3, b4⟩ := ih (Write s d)
    exact ⟨b1.trans a1, b2.trans a2, b3.trans a3, b4.trans a4⟩

theorem writeSeq_index_le (s : SdCard) (ds : List Nat) (h : s.index ≤ 7) :
    (writeSeq s ds).index ≤ 7 := by
  induction ds generalizing s with
  | nil => exact h
  | cons d ds ih =>
    rw [writeSeq_cons]
    apply ih
    rcases Write_index_cases s d with h1 | h1 | h1 <;> omega

theorem writeSeq_readByte (s : SdCard) (ds : List Nat)
    (h : s.readByte = 0 ∨ s.readByte = s.maskMiso) :
    (writeSeq s ds).readByte = 0 ∨ (writeSeq s ds).readByte = s.maskMiso := by
  induction ds generalizing s with
  | nil => exact h
  | cons d ds ih =>
    rw [writeSeq_cons]
    have hmm := (Write_masks s d).2.2.1
    have step : (Write s d).readByte = 0 ∨ (Write s d).readByte = (Write s d).maskMiso := by
      rcases Write_readByte_cases s d with h1 | h1
      · rw [h1, hmm]
        exact h
      · rw [h1, hmm]
        split
        · right
          simp
        · left
          rfl
    have h3 := ih (Write s d) step
    rwa [hmm] at h3

end SdSpec

namespace SdSpec

/-- A concrete pin assignment used to instantiate theorems: clock on pin 0,
mosi on pin 1, miso on pin 2, select on pin 3. -/
def pinMapA : PinMap := ⟨0, 1, 2, 3⟩

/-- C2: with the chip-select bit set (inactive polarity) in every written
port byte, no field of the card changes and `Read` afterwards returns the
value it returned before the sequence. -/
theorem deselected_writes_frame (pm : PinMap) (s : SdCard) (hm : goodMasks pm s)
    (h8 : pm.ss < 8) (ds : List Nat)
    (hds : ∀ d ∈ ds, d.testBit pm.ss = true) :
    writeSeq s ds = s ∧ Read (writeSeq s ds) = Read s := by
  have hmain : writeSeq s ds = s := by
    induction ds with
    | nil => rfl
    | cons d ds ih =>
      rw [writeSeq_cons]
      have hcs : 0 < d &&& s.maskSs := by
        rw [hm.2.2.2, shift_mask_eq _ h8, land_two_pow_pos]
        exact hds d (List.mem_cons_self ..)
      have hwr : Write s d = s := by simp [Write, hcs]
      rw [hwr]
      exact ih fun d hd => hds d (List.mem_cons_of_mem _ hd)
  exact ⟨hmain, by rw [hmain]⟩

theorem deselected_writes_frame_witness :
    writeSeq (NewSdCard pinMapA) [0x08, 0x0F, 0xFF] = NewSdCard pinMapA ∧
      Read (writeSeq (NewSdCard pinMapA) [0x08, 0x0F, 0xFF]) = Read (NewSdCard pinMapA) :=
  deselected_writes_frame pinMapA (NewSdCard pinMapA) (by decide) (by decide)
    [0x08, 0x0F, 0xFF] (by decide)

/-- C6: dequeuing at a byte boundary never fails: a non-empty queue moves its
head into the miso buffer, an empty queue yields the default byte `0x00`. -/
theorem dequeue_total (s : SdCard) :
    (s.misoQueue = [] → (handleMisoByte s).2.misoBuffer = 0x00 ∧
      (handleMisoByte s).2.misoQueue = []) ∧
    (∀ b rest, s.misoQueue = b :: rest →
      (handleMisoByte s).2.misoBuffer = b ∧ (handleMisoByte s).2.misoQueue = rest) := by
  constructor
  · intro h
    simp [handleMisoByte_eq, h]
  · intro b rest h
    simp [handleMisoByte_eq, h]

theorem dequeue_total_witness :
    (handleMisoByte (NewSdCard pinMapA)).2.misoBuffer = 0x00 ∧
      (handleMisoByte (NewSdCard pinMapA)).2.misoQueue = [0x00, 0xFF] :=
  (dequeue_total (NewSdCard pinMapA)).2 0x00 [0x00, 0xFF] rfl

/-- C7: `Read` is a pure projection of the card state (so it mutates nothing
and repeated calls agree by definition), and on every reachable card every
bit of the returned value other than the mapped miso bit is zero. -/
theorem read_only_miso_bit (pm : PinMap) (ds : List Nat) (h8 : pm.miso < 8) :
    ∀ i : Nat, i ≠ pm.miso → (Read (writeSeq (NewSdCard pm) ds)).testBit i = false := by
  intro i hi
  have h := writeSeq_readByte (NewSdCard pm) ds (Or.inl rfl)
  unfold Read
  rcases h with h | h
  · rw [h]
    exact Nat.zero_testBit i
  · rw [h]
    have hmask : (NewSdCard pm).maskMiso = 2 ^ pm.miso := shift_mask_eq _ h8
    rw [hmask]
    exact Nat.testBit_two_pow_of_ne hi.symm

theorem read_only_miso_bit_witness :
    (Read (writeSeq (NewSdCard pinMapA) [])).testBit 0 = false :=
  read_only_miso_bit pinMapA [] (by decide) 0 (by decide)

/-- C8: `bitIndex` stays in [0,7] on every card reachable from construction
(`Read` does not touch the state, so only `Write` calls matter), equals 7
right after construction, and resets to 7 by the falling edge processed at
`bitIndex = 0` (selected, remembered clock high, new clock level low). -/
theorem bitIndex_invariant (pm : PinMap) (ds : List Nat) :
    (writeSeq (NewSdCard pm) ds).index ≤ 7 ∧ (NewSdCard pm).index = 7 ∧
    (∀ s : SdCard, ∀ d : Nat, s.index = 0 → ¬ 0 < d &&& s.maskSs →
      s.clock = true → ¬ 0 < d &&& s.maskSclk → (Write s d).index = 7) := by
  refine ⟨writeSeq_index_le _ _ (Nat.le_refl 7), rfl, ?_⟩
  intro s d h0 hcs hck hcl
  by_cases hmo : 0 < d &&& s.maskMosi <;>
    simp [Write, hcs, writeLevels, hck, hcl, hmo, fallingUpd, h0, handleMosiByte_eq,
      handleMisoByte_eq, logExchange]

theorem bitIndex_invariant_witness :
    (writeSeq (NewSdCard pinMapA) [1]).index ≤ 7 ∧ (NewSdCard pinMapA).index = 7 ∧
      (Write { NewSdCard pinMapA with index := 0, clock := true } 0).index = 7 :=
  ⟨(bitIndex_invariant pinMapA [1]).1, (bitIndex_invariant pinMapA [1]).2.1,
    (bitIndex_invariant pinMapA [1]).2.2 { NewSdCard pinMapA with index := 0, clock := true }
      0 rfl (by decide) rfl (by decide)⟩

end SdSpec

namespace SdSpec

theorem fallingUpd_readByte (s : SdCard) (m : Bool) :
    (fallingUpd s m).readByte = s.readByte :=
  (fallingUpd_preserves s m).1

/-- C9: the latched output value changes only on a selected rising edge, on
which it becomes the level of bit `index` of the output buffer; deselected
writes, falling edges and edge-free writes leave it unchanged (`Read`
itself is a pure projection and never mutates it). -/
theorem outputLine_stability (s : SdCard) (d : Nat) :
    ((0 < d &&& s.maskSs) → (Write s d).readByte = s.readByte) ∧
    (¬ 0 < d &&& s.maskSs → s.clock = false → 0 < d &&& s.maskSclk →
      (Write s d).readByte =
        (if 0 < s.misoBuffer &&& (1 <<< s.index) % 256
         then 0x00 ||| s.maskMiso else 0x00)) ∧
    (¬ 0 < d &&& s.maskSs → ¬(s.clock = false ∧ 0 < d &&& s.maskSclk) →
      (Write s d).readByte = s.readByte) := by
  refine ⟨fun hcs => by simp [Write, hcs], fun hcs hc hcl => ?_, fun hcs hno => ?_⟩
  · simp [Write, hcs, writeLevels, hc, hcl, risingUpd]
  · cases hc2 : s.clock
    · have hcl : ¬ 0 < d &&& s.maskSclk := fun h => hno ⟨hc2, h⟩
      simp [Write, hcs, writeLevels, hc2, hcl]
    · by_cases hcl : 0 < d &&& s.maskSclk
      · simp [Write, hcs, writeLevels, hc2, hcl]
      · simp [Write, hcs, writeLevels, hc2, hcl, fallingUpd_readByte]

theorem outputLine_stability_witness :
    (Write (NewSdCard pinMapA) 0x08).readByte = (NewSdCard pinMapA).readByte ∧
      (Write (NewSdCard pinMapA) 0x01).readByte =
        (if 0 < (NewSdCard pinMapA).misoBuffer &&&
              (1 <<< (NewSdCard pinMapA).index) % 256
         then 0x00 ||| (NewSdCard pinMapA).maskMiso else 0x00) ∧
      (Write (NewSdCard pinMapA) 0x02).readByte = (NewSdCard pinMapA).readByte :=
  ⟨(outputLine_stability (NewSdCard pinMapA) 0x08).1 (by decide),
    (outputLine_stability (NewSdCard pinMapA) 0x01).2.1 (by decide) rfl (by decide),
    (outputLine_stability (NewSdCard pinMapA) 0x02).2.2 (by decide) (by decide)⟩

/-- C10: on any reachable card, `Write` reads the written port byte only at
the chip-select, clock and mosi pin positions; port bytes agreeing there
(whatever their miso or unmapped bits) produce identical successor states. -/
theorem unmapped_bits_irrelevant (pm : PinMap) (ds : List Nat) (d1 d2 : Nat)
    (h8a : pm.ss < 8) (h8b : pm.sclk < 8) (h8c : pm.mosi < 8)
    (h1 : d1.testBit pm.ss = d2.testBit pm.ss)
    (h2 : d1.testBit pm.sclk = d2.testBit pm.sclk)
    (h3 : d1.testBit pm.mosi = d2.testBit pm.mosi) :
    Write (writeSeq (NewSdCard pm) ds) d1 = Write (writeSeq (NewSdCard pm) ds) d2 := by
  obtain ⟨m1, m2, m3, m4⟩ := writeSeq_masks (NewSdCard pm) ds
  have e1 : (writeSeq (NewSdCard pm) ds).maskSclk = 2 ^ pm.sclk := by
    rw [m1]
    exact shift_mask_eq _ h8b
  have e2 : (writeSeq (NewSdCard pm) ds).maskMosi = 2 ^ pm.mosi := by
    rw [m2]
    exact shift_mask_eq _ h8c
  have e4 : (writeSeq (NewSdCard pm) ds).maskSs = 2 ^ pm.ss := by
    rw [m4]
    exact shift_mask_eq _ h8a
  unfold Write
  rw [e1, e2, e4]
  simp only [land_two_pow_pos, h1, h2, h3]

theorem unmapped_bits_irrelevant_witness :
    Write (writeSeq (NewSdCard pinMapA) []) 0x04 =
      Write (writeSeq (NewSdCard pinMapA) []) 0xF0 :=
  unmapped_bits_irrelevant pinMapA [] 0x04 0xF0 (by decide) (by decide) (by decide)
    (by decide) (by decide) (by decide)

end SdSpec

namespace SdSpec

/-- C3: an 8-pair exchange presenting bit `(7-k)` of byte `V` on the `k`-th
falling edge (whatever levels accompany the rising edges) delivers exactly
`V` as the completed input byte to the byte-boundary handler, recorded as
the mosi component of the logged exchange. -/
theorem mosi_framing (pm : PinMap) (s : SdCard) (hm : goodMasks pm s)
    (hp : goodPins pm) (hi : s.index = 7) (hb : s.mosiBuffer = 0)
    (V : Nat) (hV : V < 256) (r : Fin 8 → Bool) :
    (writeSeq s (exchangeWrites pm r (fun k => V.testBit (7 - k.val)))).log =
      s.log ++ [(V, (respQueue (fun k => V.testBit (7 - k.val)) s.misoQueue).headD 0x00)] := by
  rw [Write_exchange pm s hm hp hi hb r (fun k => V.testBit (7 - k.val))]
  simp [byteOfBits_testBit V hV]

theorem mosi_framing_witness :
    (writeSeq (NewSdCard pinMapA)
        (exchangeWrites pinMapA (fun _ => false)
          (fun k => (0x40 : Nat).testBit (7 - k.val)))).log =
      (NewSdCard pinMapA).log ++
        [(0x40, (respQueue (fun k => (0x40 : Nat).testBit (7 - k.val))
            (NewSdCard pinMapA).misoQueue).headD 0x00)] :=
  mosi_framing pinMapA (NewSdCard pinMapA) (by decide) (by decide) rfl rfl
    0x40 (by decide) (fun _ => false)

end SdSpec

namespace SdSpec

set_option maxRecDepth 100000 in
/-- C1 counterexample: the construction pre-loads FOUR bytes
`0x00 0x00 0x00 0xFF` (not three), so after the initial dequeue the queue
still holds `[0x00, 0x00, 0xFF]` (the claimed three-byte pre-load implies
`[0x00, 0xFF]`), and the third completed output byte — the miso buffer in
flight during the third exchange, i.e. after two full exchanges — is
`0x00`, not `0xFF` as the claimed power-on sequence `0x00, 0x00, 0xFF`
requires. -/
theorem power_on_counterexample :
    (NewSdCard pinMapA).misoQueue ≠ [0x00, 0xFF] ∧
    (writeSeq (NewSdCard pinMapA)
        (exchangeWrites pinMapA (fun _ => false) (fun _ => false) ++
         exchangeWrites pinMapA (fun _ => false) (fun _ => false))).misoBuffer = 0x00 ∧
    ¬ (writeSeq (NewSdCard pinMapA)
        (exchangeWrites pinMapA (fun _ => false) (fun _ => false) ++
         exchangeWrites pinMapA (fun _ => false) (fun _ => false))).misoBuffer = 0xFF :=
  ⟨by decide, by decide, by decide⟩

/-- C1 (amended): construction pre-loads four bytes `0x00 0x00 0x00 0xFF`
and immediately dequeues the first into the output buffer, leaving
`[0x00, 0x00, 0xFF]` queued; driving four idle exchanges, the bytes loaded
at the successive byte boundaries are `0x00, 0x00, 0xFF, 0x00`, so the first
four completed output bytes after construction are `0x00, 0x00, 0x00, 0xFF`
(the initial buffer completes at the first boundary, and each loaded byte
completes at the boundary after the one that loaded it). -/
theorem power_on_amended (pm : PinMap) (hp : goodPins pm) :
    (NewSdCard pm).misoBuffer = 0x00 ∧
    (NewSdCard pm).misoQueue = [0x00, 0x00, 0xFF] ∧
    (writeSeq (NewSdCard pm)
        (exchangeWrites pm (fun _ => false) (fun _ => false) ++
         exchangeWrites pm (fun _ => false) (fun _ => false) ++
         exchangeWrites pm (fun _ => false) (fun _ => false) ++
         exchangeWrites pm (fun _ => false) (fun _ => false))).log =
      [(0x00, 0x00), (0x00, 0x00), (0x00, 0xFF), (0x00, 0x00)] := by
  refine ⟨rfl, rfl, ?_⟩
  have h1 :
      writeSeq (NewSdCard pm) (exchangeWrites pm (fun _ => false) (fun _ => false)) =
      { clock := false, index := 7, misoBuffer := 0x00,
        misoQueue := [0x00, 0xFF], readByte := 0, mosiBuffer := 0,
        maskSclk := (1 <<< pm.sclk) % 256, maskMosi := (1 <<< pm.mosi) % 256,
        maskMiso := (1 <<< pm.miso) % 256, maskSs := (1 <<< pm.ss) % 256,
        log := [(0x00, 0x00)] } := by
    rw [Write_exchange pm (NewSdCard pm) ⟨rfl, rfl, rfl, rfl⟩ hp rfl rfl]
    simp [respQueue, byteOfBits, setBitCond, NewSdCard_eq]
  have h2 :
      writeSeq
        ({ clock := false, index := 7, misoBuffer := 0x00,
           misoQueue := [0x00, 0xFF], readByte := 0, mosiBuffer := 0,
           maskSclk := (1 <<< pm.sclk) % 256, maskMosi := (1 <<< pm.mosi) % 256,
           maskMiso := (1 <<< pm.miso) % 256, maskSs := (1 <<< pm.ss) % 256,
           log := [(0x00, 0x00)] } : SdCard)
        (exchangeWrites pm (fun _ => false) (fun _ => false)) =
      { clock := false, index := 7, misoBuffer := 0x00,
        misoQueue := [0xFF], readByte := 0, mosiBuffer := 0,
        maskSclk := (1 <<< pm.sclk) % 256, maskMosi := (1 <<< pm.mosi) % 256,
        maskMiso := (1 <<< pm.miso) % 256, maskSs := (1 <<< pm.ss) % 256,
        log := [(0x00, 0x00), (0x00, 0x00)] } := by
    rw [Write_exchange pm _ ⟨rfl, rfl, rfl, rfl⟩ hp rfl rfl]
    simp [respQueue, byteOfBits, setBitCond]
  have h3 :
      writeSeq
        ({ clock := false, index := 7, misoBuffer := 0x00,
           misoQueue := [0xFF], readByte := 0, mosiBuffer := 0,
           maskSclk := (1 <<< pm.sclk) % 256, maskMosi := (1 <<< pm.mosi) % 256,
           maskMiso := (1 <<< pm.miso) % 256, maskSs := (1 <<< pm.ss) % 256,
           log := [(0x00, 0x00), (0x00, 0x00)] } : SdCard)
        (exchangeWrites pm (fun _ => false) (fun _ => false)) =
      { clock := false, index := 7, misoBuffer := 0xFF,
        misoQueue := [], readByte := 0, mosiBuffer := 0,
        maskSclk := (1 <<< pm.sclk) % 256, maskMosi := (1 <<< pm.mosi) % 256,
        maskMiso := (1 <<< pm.miso) % 256, maskSs := (1 <<< pm.ss) % 256,
        log := [(0x00, 0x00), (0x00, 0x00), (0x00, 0xFF)] } := by
    rw [Write_exchange pm _ ⟨rfl, rfl, rfl, rfl⟩ hp rfl rfl]
    simp [respQueue, byteOfBits, setBitCond]
  have h4 :
      writeSeq
        ({ clock := false, index := 7, misoBuffer := 0xFF,
           misoQueue := [], readByte := 0, mosiBuffer := 0,
           maskSclk := (1 <<< pm.sclk) % 256, maskMosi := (1 <<< pm.mosi) % 256,
           maskMiso := (1 <<< pm.miso) % 256, maskSs := (1 <<< pm.ss) % 256,
           log := [(0x00, 0x00), (0x00, 0x00), (0x00, 0xFF)] } : SdCard)
        (exchangeWrites pm (fun _ => false) (fun _ => false)) =
      { clock := false, index := 7, misoBuffer := 0x00,
        misoQueue := [], readByte := (1 <<< pm.miso) % 256, mosiBuffer := 0,
        maskSclk := (1 <<< pm.sclk) % 256, maskMosi := (1 <<< pm.mosi) % 256,
        maskMiso := (1 <<< pm.miso) % 256, maskSs := (1 <<< pm.ss) % 256,
        log := [(0x00, 0x00), (0x00, 0x00), (0x00, 0xFF), (0x00, 0x00)] } := by
    rw [Write_exchange pm _ ⟨rfl, rfl, rfl, rfl⟩ hp rfl rfl]
    simp [respQueue, byteOfBits, setBitCond]
  rw [writeSeq_append, writeSeq_append, writeSeq_append, h1, h2, h3, h4]

theorem power_on_amended_witness :
    (NewSdCard pinMapA).misoBuffer = 0x00 ∧
    (NewSdCard pinMapA).misoQueue = [0x00, 0x00, 0xFF] ∧
    (writeSeq (NewSdCard pinMapA)
        (exchangeWrites pinMapA (fun _ => false) (fun _ => false) ++
         exchangeWrites pinMapA (fun _ => false) (fun _ => false) ++
         exchangeWrites pinMapA (fun _ => false) (fun _ => false) ++
         exchangeWrites pinMapA (fun _ => false) (fun _ => false))).log =
      [(0x00, 0x00), (0x00, 0x00), (0x00, 0xFF), (0x00, 0x00)] :=
  power_on_amended pinMapA (by decide)

end SdSpec

namespace SdSpec

theorem byteOfBits_forty :
    byteOfBits (fun k => (0x40 : Nat).testBit (7 - k.val)) = 0x40 := by decide

/-- C5: the byte-boundary handler enqueues exactly `0xAA 0xAB 0xAC 0xAD` at
the tail when the completed input byte is `0x40` and enqueues nothing
otherwise; consequently, from a byte-boundary state whose response queue has
drained empty, an exchange carrying `0x40` followed by four idle exchanges
shifts out `0xAA, 0xAB, 0xAC, 0xAD` in order (the miso buffer in flight
during each of the four following exchanges), each completed by the next
byte boundary as the log records. -/
theorem command_trigger (pm : PinMap) (s : SdCard) (hm : goodMasks pm s)
    (hp : goodPins pm) (hi : s.index = 7) (hb : s.mosiBuffer = 0)
    (hq : s.misoQueue = []) :
    (∀ t : SdCard, t.mosiBuffer = 0x40 →
       (handleMosiByte t).2.misoQueue = t.misoQueue ++ [0xAA, 0xAB, 0xAC, 0xAD]) ∧
    (∀ t : SdCard, t.mosiBuffer ≠ 0x40 →
       (handleMosiByte t).2.misoQueue = t.misoQueue) ∧
    ((writeSeq s (exchangeWrites pm (fun _ => false) (fun k => (0x40 : Nat).testBit (7 - k.val)))).misoBuffer = 0xAA ∧
     (writeSeq s (exchangeWrites pm (fun _ => false) (fun k => (0x40 : Nat).testBit (7 - k.val)) ++
        exchangeWrites pm (fun _ => false) (fun _ => false))).misoBuffer = 0xAB ∧
     (writeSeq s (exchangeWrites pm (fun _ => false) (fun k => (0x40 : Nat).testBit (7 - k.val)) ++
        exchangeWrites pm (fun _ => false) (fun _ => false) ++
        exchangeWrites pm (fun _ => false) (fun _ => false))).misoBuffer = 0xAC ∧
     (writeSeq s (exchangeWrites pm (fun _ => false) (fun k => (0x40 : Nat).testBit (7 - k.val)) ++
        exchangeWrites pm (fun _ => false) (fun _ => false) ++
        exchangeWrites pm (fun _ => false) (fun _ => false) ++
        exchangeWrites pm (fun _ => false) (fun _ => false))).misoBuffer = 0xAD ∧
     (writeSeq s (exchangeWrites pm (fun _ => false) (fun k => (0x40 : Nat).testBit (7 - k.val)) ++
        exchangeWrites pm (fun _ => false) (fun _ => false) ++
        exchangeWrites pm (fun _ => false) (fun _ => false) ++
        exchangeWrites pm (fun _ => false) (fun _ => false) ++
        exchangeWrites pm (fun _ => false) (fun _ => false))).log =
       s.log ++ [(0x40, 0xAA), (0x00, 0xAB), (0x00, 0xAC), (0x00, 0xAD), (0x00, 0x00)]) := by
  have h1 :
      writeSeq s (exchangeWrites pm (fun _ => false) (fun k => (0x40 : Nat).testBit (7 - k.val))) =
      { s with
        clock := false,
        readByte := if 0 < s.misoBuffer &&& 1 then s.maskMiso else 0,
        mosiBuffer := 0, misoBuffer := 0xAA,
        misoQueue := [0xAB, 0xAC, 0xAD],
        log := s.log ++ [(0x40, 0xAA)], index := 7 } := by
    rw [Write_exchange pm s hm hp hi hb]
    simp [respQueue, byteOfBits_forty, hq]
  have h2 :
      writeSeq
        ({ s with
           clock := false,
           readByte := if 0 < s.misoBuffer &&& 1 then s.maskMiso else 0,
           mosiBuffer := 0, misoBuffer := 0xAA,
           misoQueue := [0xAB, 0xAC, 0xAD],
           log := s.log ++ [(0x40, 0xAA)], index := 7 } : SdCard)
        (exchangeWrites pm (fun _ => false) (fun _ => false)) =
      { s with
        clock := false,
        readByte := 0,
        mosiBuffer := 0, misoBuffer := 0xAB,
        misoQueue := [0xAC, 0xAD],
        log := s.log ++ [(0x40, 0xAA), (0x00, 0xAB)], index := 7 } := by
    rw [Write_exchange pm _ (by exact hm) hp rfl rfl]
    simp [respQueue, byteOfBits, setBitCond]
  have h3 :
      writeSeq
        ({ s with
           clock := false,
           readByte := 0,
           mosiBuffer := 0, misoBuffer := 0xAB,
           misoQueue := [0xAC, 0xAD],
           log := s.log ++ [(0x40, 0xAA), (0x00, 0xAB)], index := 7 } : SdCard)
        (exchangeWrites pm (fun _ => false) (fun _ => false)) =
      { s with
        clock := false,
        readByte := s.maskMiso,
        mosiBuffer := 0, misoBuffer := 0xAC,
        misoQueue := [0xAD],
        log := s.log ++ [(0x40, 0xAA), (0x00, 0xAB), (0x00, 0xAC)], index := 7 } := by
    rw [Write_exchange pm _ (by exact hm) hp rfl rfl]
    simp [respQueue, byteOfBits, setBitCond]
  have h4 :
      writeSeq
        ({ s with
           clock := false,
           readByte := s.maskMiso,
           mosiBuffer := 0, misoBuffer := 0xAC,
           misoQueue := [0xAD],
           log := s.log ++ [(0x40, 0xAA), (0x00, 0xAB), (0x00, 0xAC)], index := 7 } : SdCard)
        (exchangeWrites pm (fun _ => false) (fun _ => false)) =
      { s with
        clock := false,
        readByte := 0,
        mosiBuffer := 0, misoBuffer := 0xAD,
        misoQueue := [],
        log := s.log ++ [(0x40, 0xAA), (0x00, 0xAB), (0x00, 0xAC), (0x00, 0xAD)], index := 7 } := by
    rw [Write_exchange pm _ (by exact hm) hp rfl rfl]
    simp [respQueue, byteOfBits, setBitCond]
  have h5 :
      writeSeq
        ({ s with
           clock := false,
           readByte := 0,
           mosiBuffer := 0, misoBuffer := 0xAD,
           misoQueue := [],
           log := s.log ++ [(0x40, 0xAA), (0x00, 0xAB), (0x00, 0xAC), (0x00, 0xAD)], index := 7 } : SdCard)
        (exchangeWrites pm (fun _ => false) (fun _ => false)) =
      { s with
        clock := false,
        readByte := s.maskMiso,
        mosiBuffer := 0, misoBuffer := 0x00,
        misoQueue := [],
        log := s.log ++ [(0x40, 0xAA), (0x00, 0xAB), (0x00, 0xAC), (0x00, 0xAD), (0x00, 0x00)], index := 7 } := by
    rw [Write_exchange pm _ (by exact hm) hp rfl rfl]
    simp [respQueue, byteOfBits, setBitCond]
  refine ⟨fun t ht => by simp [handleMosiByte_eq, ht],
    fun t ht => by simp [handleMosiByte_eq, ht], ?_, ?_, ?_, ?_, ?_⟩
  · rw [h1]
  · rw [writeSeq_append, h1, h2]
  · rw [writeSeq_append, writeSeq_append, h1, h2, h3]
  · rw [writeSeq_append, writeSeq_append, writeSeq_append, h1, h2, h3, h4]
  · rw [writeSeq_append, writeSeq_append, writeSeq_append, writeSeq_append,
      h1, h2, h3, h4, h5]

end SdSpec

namespace SdSpec

theorem command_trigger_witness :
    (writeSeq { NewSdCard pinMapA with misoQueue := [] }
        (exchangeWrites pinMapA (fun _ => false)
          (fun k => (0x40 : Nat).testBit (7 - k.val)))).misoBuffer = 0xAA :=
  (command_trigger pinMapA { NewSdCard pinMapA with misoQueue := [] }
    (by decide) (by decide) rfl rfl rfl).2.2.1

end SdSpec

namespace SdSpec

theorem land_pos_iff (x i n : Nat) (h : (2 : Nat) ^ i = n) :
    0 < x &&& n ↔ x.testBit i := by
  subst h
  exact land_two_pow_pos x i

/-- C4: from a byte-boundary state with the clock remembered low, the output
levels latched by the 8 successive rising edges are the bits of the output
buffer from most significant to least significant, whatever data-out levels
accompany the rising and the intervening falling edges. -/
theorem miso_shift (pm : PinMap) (s : SdCard) (hm : goodMasks pm s)
    (hp : goodPins pm) (hi : s.index = 7) (hc : s.clock = false)
    (r f : Fin 8 → Bool) :
    (Read (writeSeq s ((exchangeWrites pm r f).take 1)) =
      (if s.misoBuffer.testBit 7 then 0x00 ||| s.maskMiso else 0x00)) ∧
    (Read (writeSeq s ((exchangeWrites pm r f).take 3)) =
      (if s.misoBuffer.testBit 6 then 0x00 ||| s.maskMiso else 0x00)) ∧
    (Read (writeSeq s ((exchangeWrites pm r f).take 5)) =
      (if s.misoBuffer.testBit 5 then 0x00 ||| s.maskMiso else 0x00)) ∧
    (Read (writeSeq s ((exchangeWrites pm r f).take 7)) =
      (if s.misoBuffer.testBit 4 then 0x00 ||| s.maskMiso else 0x00)) ∧
    (Read (writeSeq s ((exchangeWrites pm r f).take 9)) =
      (if s.misoBuffer.testBit 3 then 0x00 ||| s.maskMiso else 0x00)) ∧
    (Read (writeSeq s ((exchangeWrites pm r f).take 11)) =
      (if s.misoBuffer.testBit 2 then 0x00 ||| s.maskMiso else 0x00)) ∧
    (Read (writeSeq s ((exchangeWrites pm r f).take 13)) =
      (if s.misoBuffer.testBit 1 then 0x00 ||| s.maskMiso else 0x00)) ∧
    (Read (writeSeq s ((exchangeWrites pm r f).take 15)) =
      (if s.misoBuffer.testBit 0 then 0x00 ||| s.maskMiso else 0x00)) := by
  refine ⟨?_, ?_, ?_, ?_, ?_, ?_, ?_, ?_⟩
  · simp only [exchangeWrites, List.take_succ_cons, List.take_zero]
    rw [writeSeq_cons, writeSeq_nil, Write_rise pm s hm hp (r 0) hc]
    simp [Read, hi, land_pos_iff s.misoBuffer 7 128 (by norm_num)]
  · simp only [exchangeWrites, List.take_succ_cons, List.take_zero]
    rw [writeSeq_pair_cons pm s hm hp (r 0) (f 0) (by simp [hi])]
    simp only [hi]
    norm_num
    rw [writeSeq_cons, writeSeq_nil, Write_rise pm _ (by exact hm) hp (r 1) rfl]
    simp [Read, land_pos_iff s.misoBuffer 6 64 (by norm_num)]
  · simp only [exchangeWrites, List.take_succ_cons, List.take_zero]
    rw [writeSeq_pair_cons pm s hm hp (r 0) (f 0) (by simp [hi])]
    simp only [hi]
    norm_num
    rw [writeSeq_pair_cons pm _ (by exact hm) hp (r 1) (f 1) (by norm_num)]
    norm_num
    rw [writeSeq_cons, writeSeq_nil, Write_rise pm _ (by exact hm) hp (r 2) rfl]
    simp [Read, land_pos_iff s.misoBuffer 5 32 (by norm_num)]
  · simp only [exchangeWrites, List.take_succ_cons, List.take_zero]
    rw [writeSeq_pair_cons pm s hm hp (r 0) (f 0) (by simp [hi])]
    simp only [hi]
    norm_num
    rw [writeSeq_pair_cons pm _ (by exact hm) hp (r 1) (f 1) (by norm_num)]
    norm_num
    rw [writeSeq_pair_cons pm _ (by exact hm) hp (r 2) (f 2) (by norm_num)]
    norm_num
    rw [writeSeq_cons, writeSeq_nil, Write_rise pm _ (by exact hm) hp (r 3) rfl]
    simp [Read, land_pos_iff s.misoBuffer 4 16 (by norm_num)]
  · simp only [exchangeWrites, List.take_succ_cons, List.take_zero]
    rw [writeSeq_pair_cons pm s hm hp (r 0) (f 0) (by simp [hi])]
    simp only [hi]
    norm_num
    rw [writeSeq_pair_cons pm _ (by exact hm) hp (r 1) (f 1) (by norm_num)]
    norm_num
    rw [writeSeq_pair_cons pm _ (by exact hm) hp (r 2) (f 2) (by norm_num)]
    norm_num
    rw [writeSeq_pair_cons pm _ (by exact hm) hp (r 3) (f 3) (by norm_num)]
    norm_num
    rw [writeSeq_cons, writeSeq_nil, Write_rise pm _ (by exact hm) hp (r 4) rfl]
    simp [Read, land_pos_iff s.misoBuffer 3 8 (by norm_num)]
  · simp only [exchangeWrites, List.take_succ_cons, List.take_zero]
    rw [writeSeq_pair_cons pm s hm hp (r 0) (f 0) (by simp [hi])]
    simp only [hi]
    norm_num
    rw [writeSeq_pair_cons pm _ (by exact hm) hp (r 1) (f 1) (by norm_num)]
    norm_num
    rw [writeSeq_pair_cons pm _ (by exact hm) hp (r 2) (f 2) (by norm_num)]
    norm_num
    rw [writeSeq_pair_cons pm _ (by exact hm) hp (r 3) (f 3) (by norm_num)]
    norm_num
    rw [writeSeq_pair_cons pm _ (by exact hm) hp (r 4) (f 4) (by norm_num)]
    norm_num
    rw [writeSeq_cons, writeSeq_nil, Write_rise pm _ (by exact hm) hp (r 5) rfl]
    simp [Read, land_pos_iff s.misoBuffer 2 4 (by norm_num)]
  · simp only [exchangeWrites, List.take_succ_cons, List.take_zero]
    rw [writeSeq_pair_cons pm s hm hp (r 0) (f 0) (by simp [hi])]
    simp only [hi]
    norm_num
    rw [writeSeq_pair_cons pm _ (by exact hm) hp (r 1) (f 1) (by norm_num)]
    norm_num
    rw [writeSeq_pair_cons pm _ (by exact hm) hp (r 2) (f 2) (by norm_num)]
    norm_num
    rw [writeSeq_pair_cons pm _ (by exact hm) hp (r 3) (f 3) (by norm_num)]
    norm_num
    rw [writeSeq_pair_cons pm _ (by exact hm) hp (r 4) (f 4) (by norm_num)]
    norm_num
    rw [writeSeq_pair_cons pm _ (by exact hm) hp (r 5) (f 5) (by norm_num)]
    norm_num
    rw [writeSeq_cons, writeSeq_nil, Write_rise pm _ (by exact hm) hp (r 6) rfl]
    simp [Read, land_pos_iff s.misoBuffer 1 2 (by norm_num)]
  · simp only [exchangeWrites, List.take_succ_cons, List.take_zero]
    rw [writeSeq_pair_cons pm s hm hp (r 0) (f 0) (by simp [hi])]
    simp only [hi]
    norm_num
    rw [writeSeq_pair_cons pm _ (by exact hm) hp (r 1) (f 1) (by norm_num)]
    norm_num
    rw [writeSeq_pair_cons pm _ (by exact hm) hp (r 2) (f 2) (by norm_num)]
    norm_num
    rw [writeSeq_pair_cons pm _ (by exact hm) hp (r 3) (f 3) (by norm_num)]
    norm_num
    rw [writeSeq_pair_cons pm _ (by exact hm) hp (r 4) (f 4) (by norm_num)]
    norm_num
    rw [writeSeq_pair_cons pm _ (by exact hm) hp (r 5) (f 5) (by norm_num)]
    norm_num
    rw [writeSeq_pair_cons pm _ (by exact hm) hp (r 6) (f 6) (by norm_num)]
    norm_num
    rw [writeSeq_cons, writeSeq_nil, Write_rise pm _ (by exact hm) hp (r 7) rfl]
    simp [Read, land_pos_iff s.misoBuffer 0 1 (by norm_num)]
    rcases Nat.mod_two_eq_zero_or_one s.misoBuffer with h | h <;> simp [h]

theorem miso_shift_witness :
    Read (writeSeq (NewSdCard pinMapA)
        ((exchangeWrites pinMapA (fun _ => false) (fun _ => false)).take 1)) =
      (if (NewSdCard pinMapA).misoBuffer.testBit 7
       then 0x00 ||| (NewSdCard pinMapA).maskMiso else 0x00) :=
  (miso_shift pinMapA (NewSdCard pinMapA) (by decide) (by decide) rfl rfl
    (fun _ => false) (fun _ => false)).1

end SdSpec
